import Mathlib

/-!
Verification of the worktree-management core of `git-wt`.

The development shallowly embeds the Go sources of the repository:

* `internal/git/ref.go` — `NormalizeBranchName`;
* `internal/git/config.go` — `GitConfig`, `RepoRoot`, `MainRepoRoot`,
  `RepoName`, `LoadConfig`, `expandTemplate`, `ExpandPath`, `ExpandBaseDir`;
* `internal/git/repo_context.go` — `RepoContext`, `DetectRepoContext`;
* `internal/git/worktree.go` — this file is absent from the provided sources
  (only its tests are present), so `ListWorktrees`, `FindWorktreeByBranch`,
  `FindWorktreeByBranchOrDir` and `RemoveWorktree` are modelled from the
  specification (sections 4.1, 4.3, 4.4), with each such definition marked
  `Modelled from the spec:` in its doc comment.

All interaction with the external `git` binary and the operating system is
represented by an explicit environment record `GitEnv`: each field holds the
(trimmed) observable result of one external query, and functions translated
from Go read from it exactly where the Go code shells out.  Machine strings
are Lean `String`s; fallible Go calls returning `(T, error)` become
`Except GitError T`.
-/

/-- Go `error` values are opaque to this program; only their presence and
propagation matter, so an error is represented by its message string. -/
abbrev GitError := String

/-! ### Path arithmetic (Go `path/filepath`, Unix rules)

The Go code manipulates paths with `filepath.Clean`, `filepath.Join`,
`filepath.Dir`, `filepath.Base` and `filepath.IsAbs`.  These are embedded
below over `List Char` so that a witness can evaluate them inside the
kernel.  The semantics follows Go's lexical path cleaning. -/

/-- Splits a character list on `/`, keeping empty components (Go's
`strings.Split(path, "/")`). -/
def splitOnSlash : List Char → List String
  | [] => [""]
  | c :: cs =>
    let r := splitOnSlash cs
    if c = '/' then "" :: r
    else
      match r with
      | [] => [String.mk [c]]
      | s :: rest => String.mk (c :: s.data) :: rest

/-- One pass of Go `filepath.Clean`'s element processing: drop empty and `.`
components, let `..` pop the previous component (except past the root of a
rooted path, or at the head of a relative path where it is kept).  `acc`
holds the already-emitted components in reverse. -/
def cleanComps (rooted : Bool) (acc : List String) : List String → List String
  | [] => acc.reverse
  | c :: cs =>
    if c = "" ∨ c = "." then cleanComps rooted acc cs
    else if c = ".." then
      match acc with
      | [] => if rooted then cleanComps rooted [] cs else cleanComps rooted [".."] cs
      | a :: rest =>
        if a = ".." then cleanComps rooted (c :: acc) cs else cleanComps rooted rest cs
    else cleanComps rooted (c :: acc) cs

/-- Joins path components with `/`. -/
def joinComps : List String → String
  | [] => ""
  | [c] => c
  | c :: cs => c ++ "/" ++ joinComps cs

/-- Go `filepath.IsAbs` on Unix: the path starts with a separator. -/
def isAbs (path : String) : Bool :=
  match path.data with
  | '/' :: _ => true
  | _ => false

/-- Go `filepath.Clean`: shortest lexically equivalent path. -/
def clean (path : String) : String :=
  if path = "" then "."
  else
    let rooted := isAbs path
    let out := joinComps (cleanComps rooted [] (splitOnSlash path.data))
    if rooted then (if out = "" then "/" else "/" ++ out)
    else (if out = "" then "." else out)

/-- Go `filepath.Join` restricted to two elements: empty elements are
dropped, the rest joined with `/` and cleaned. -/
def joinPath (a b : String) : String :=
  if a = "" then (if b = "" then "" else clean b)
  else if b = "" then clean a
  else clean (a ++ "/" ++ b)

/-- Go `filepath.Dir`: everything up to (and including) the final separator,
cleaned; `.` when there is no separator. -/
def dirPath (path : String) : String :=
  clean (String.mk ((path.data.reverse.dropWhile (fun c => c ≠ '/')).reverse))

/-- Go `filepath.Base`: the last element of the path after trailing
separators are removed; `.` for the empty path, `/` for all-separator
paths. -/
def basename (path : String) : String :=
  if path = "" then "."
  else
    let rev := path.data.reverse.dropWhile (fun c => c = '/')
    if rev = [] then "/"
    else String.mk ((rev.takeWhile (fun c => c ≠ '/')).reverse)

/-- Go `strings.HasPrefix`, over the character lists of the strings. -/
def startsWithS (s pre : String) : Bool :=
  pre.data.isPrefixOf s.data

/-- Drops the first `n` characters of a string (Go `s[n:]` on ASCII data). -/
def dropS (s : String) (n : Nat) : String :=
  String.mk (s.data.drop n)

/-- Go `strings.Contains` over character lists. -/
def hasSubstr (sub : List Char) : List Char → Bool
  | [] => sub.isEmpty
  | c :: t => sub.isPrefixOf (c :: t) || hasSubstr sub t

/-- Go `strings.Contains s sub`. -/
def containsSub (s sub : String) : Bool :=
  hasSubstr sub.data s.data

/-! ### Data model -/

/-- One record of the machine-readable worktree listing
(spec section 3 `WorktreeRecord`; Go type `Worktree` in the missing
`internal/git/worktree.go`, whose field names appear throughout the tests:
`Path`, `Branch`, `Head`, `Bare`). -/
structure Worktree where
  Path : String
  Branch : String
  Head : String
  Bare : Bool
  Locked : Bool
  Prunable : Bool
deriving Repr, DecidableEq

/-- Repository context, translated from `internal/git/repo_context.go`:
`Bare` — the main repository is bare; `Worktree` — the current directory is
inside a linked worktree. -/
structure RepoContext where
  Bare : Bool
  Worktree : Bool
deriving Repr, DecidableEq

/-- Configuration, translated from `internal/git/config.go` (`type Config`). -/
structure Config where
  BaseDir : String
  CopyIgnored : Bool
  CopyUntracked : Bool
  CopyModified : Bool
  NoCopy : List String
deriving Repr, DecidableEq

/-- The external git/OS boundary.  Each field is the observable, already
whitespace-trimmed outcome of one external query the Go code performs:

* `porcelain` — the stdout lines of `git worktree list --porcelain`
  (`.error` when the tool cannot run or exits nonzero);
* `showToplevel` — trimmed stdout of `git rev-parse --show-toplevel`;
* `gitCommonDir` — trimmed stdout of `git rev-parse --git-common-dir`;
* `home` — `os.UserHomeDir`;
* `evalSymlinks` — `filepath.EvalSymlinks` (`none` models an error);
* `cwd` — the process working directory;
* `configAll` — the value lines of `git config --get-all key` in scope
  order, `[]` when the key is unset (the Go code maps exit status 1 and
  empty output to an empty result with a nil error). -/
structure GitEnv where
  porcelain : Except GitError (List String)
  showToplevel : Except GitError String
  gitCommonDir : Except GitError String
  home : Except GitError String
  evalSymlinks : String → Option String
  cwd : String
  configAll : String → List String

/-! ### `internal/git/ref.go` -/

/-- Translated from `NormalizeBranchName` in `internal/git/ref.go`:
`strings.ReplaceAll(name, ":", "/")`.  Replacing a single character by a
single character is embedded as a character map. -/
def NormalizeBranchName (name : String) : String :=
  String.mk (name.data.map fun c => if c = ':' then '/' else c)

/-! ### Worktree listing parser

`internal/git/worktree.go` is not part of the provided sources (only its
tests are), so the listing parser is modelled from spec section 4.1. -/

/-- Modelled from the spec: the per-line step of the porcelain parser of
`ListWorktrees` (`internal/git/worktree.go`, absent from the sources).
Recognized markers: `worktree <path>`, `HEAD <id>` (abbreviated to the
fixed length 7 for stable comparisons), `branch <ref>` (short name),
`bare`, `detached` (detached checkout carries no branch), `locked`,
`prunable`; unrecognized markers are ignored for forward compatibility. -/
def parseLine (w : Worktree) (l : String) : Worktree :=
  if startsWithS l "worktree " then { w with Path := dropS l 9 }
  else if startsWithS l "HEAD " then { w with Head := String.mk ((l.data.drop 5).take 7) }
  else if startsWithS l "branch " then
    { w with Branch := if startsWithS (dropS l 7) "refs/heads/" then dropS l 18 else dropS l 7 }
  else if l = "bare" then { w with Bare := true }
  else if l = "detached" then { w with Branch := "" }
  else if startsWithS l "locked" then { w with Locked := true }
  else if startsWithS l "prunable" then { w with Prunable := true }
  else w

/-- Modelled from the spec: one blank-line-separated block of porcelain
output becomes one record, all fields taken from that same block. -/
def parseBlock (b : List String) : Worktree :=
  b.foldl parseLine { Path := "", Branch := "", Head := "", Bare := false,
                      Locked := false, Prunable := false }

/-- Splits output lines into maximal runs of nonblank lines; `cur` holds the
current block in reverse. -/
def splitBlocksAux (cur : List String) : List String → List (List String)
  | [] => if cur.isEmpty then [] else [cur.reverse]
  | l :: ls =>
    if l = "" then
      if cur.isEmpty then splitBlocksAux [] ls
      else cur.reverse :: splitBlocksAux [] ls
    else splitBlocksAux (l :: cur) ls

/-- Modelled from the spec: blank-line-separated block structure of the
porcelain listing. -/
def splitBlocks (lines : List String) : List (List String) :=
  splitBlocksAux [] lines

/-- Modelled from the spec: the pure core of `ListWorktrees` — parse the
porcelain output lines into the ordered record sequence. -/
def parseWorktrees (lines : List String) : List Worktree :=
  (splitBlocks lines).map parseBlock

/-- Modelled from the spec: `ListWorktrees` (worktree.go absent).  Runs the
machine-readable listing via the environment and parses its output. -/
def ListWorktrees (env : GitEnv) : Except GitError (List Worktree) :=
  match env.porcelain with
  | .error e => .error e
  | .ok lines => .ok (parseWorktrees lines)

/-- Number of records flagged bare in a listing. -/
def bareCount (l : List Worktree) : Nat :=
  (l.filter (fun w => w.Bare)).length

/-! ### Worktree locator and lifecycle (spec sections 4.3, 4.4)

`internal/git/worktree.go` is absent from the sources; the locator and the
removal operation are modelled from the spec, with their semantics pinned
down by the tests in `internal/git/worktree_test.go`. -/

/-- Symlink resolution with the Go code's fallback: `filepath.EvalSymlinks`
failures fall back to the unresolved path. -/
def resolvePath (env : GitEnv) (p : String) : String :=
  match env.evalSymlinks p with
  | some r => r
  | none => p

/-- Modelled from the spec: the pure matching core of `FindWorktreeByBranch`
(worktree.go absent) — exact match of the query against each non-bare
record's `Branch`; the bare record is never eligible. -/
def findByBranch (wts : List Worktree) (branch : String) : Option Worktree :=
  wts.find? (fun w => !w.Bare && w.Branch == branch)

/-- Modelled from the spec: `FindWorktreeByBranch` (worktree.go absent).
Obtains the listing, then matches by branch; absence of a match is reported
as no record with a nil error. -/
def FindWorktreeByBranch (env : GitEnv) (branch : String) :
    Except GitError (Option Worktree) :=
  match ListWorktrees env with
  | .error e => .error e
  | .ok wts => .ok (findByBranch wts branch)

/-- Modelled from the spec: a token is path-shaped when it is absolute,
`.` or `..`, or contains a separator. -/
def isPathLike (tok : String) : Bool :=
  tok == "." || tok == ".." || isAbs tok || containsSub tok "/"

/-- Modelled from the spec: resolve a path-shaped token to an absolute,
symlink-resolved path (relative tokens are taken from the process working
directory). -/
def resolveToken (env : GitEnv) (tok : String) : String :=
  resolvePath env (if isAbs tok then clean tok else joinPath env.cwd tok)

/-- Modelled from the spec: directory matching of the locator — the
resolved token against each record's (also resolved) `Path`; the bare
record is eligible here, its `Path` being a real location. -/
def findByDir (env : GitEnv) (wts : List Worktree) (tok : String) : Option Worktree :=
  wts.find? (fun w => resolvePath env w.Path == resolveToken env tok)

/-- Modelled from the spec: the pure matching core of
`FindWorktreeByBranchOrDir` (worktree.go absent) — path-shaped tokens use
directory matching, all others use branch matching. -/
def findByBranchOrDir (env : GitEnv) (wts : List Worktree) (tok : String) :
    Option Worktree :=
  if isPathLike tok then findByDir env wts tok else findByBranch wts tok

/-- Modelled from the spec: `FindWorktreeByBranchOrDir` (worktree.go
absent). -/
def FindWorktreeByBranchOrDir (env : GitEnv) (tok : String) :
    Except GitError (Option Worktree) :=
  match ListWorktrees env with
  | .error e => .error e
  | .ok wts => .ok (findByBranchOrDir env wts tok)

/-- Whether a worktree record matches a query token under the locator's
rules (directory matching for path-shaped tokens, branch matching
otherwise). -/
def tokenMatches (env : GitEnv) (tok : String) (w : Worktree) : Bool :=
  if isPathLike tok then resolvePath env w.Path == resolveToken env tok
  else !w.Bare && w.Branch == tok

/-- Administrative repository state touched by worktree removal: the
listing records, the set of local branch names, and the paths of worktrees
holding uncommitted or untracked changes. -/
structure RepoState where
  worktrees : List Worktree
  branches : List String
  dirtyPaths : List String
deriving Repr, DecidableEq

/-- Modelled from the spec: `RemoveWorktree` (worktree.go absent).  Safe
removal refuses when the worktree holds uncommitted or untracked changes,
surfacing the tool's refusal; forced removal bypasses that check.  Removal
unregisters the worktree record at the path; branch deletion is an explicit
separate step, never cascaded from removal. -/
def RemoveWorktree (s : RepoState) (path : String) (force : Bool) :
    Except GitError RepoState :=
  if !force && s.dirtyPaths.contains path then
    .error "contains modified or untracked files, use --force to delete it"
  else
    .ok { worktrees := s.worktrees.filter (fun w => w.Path ≠ path)
          branches := s.branches
          dirtyPaths := s.dirtyPaths.filter (fun p => p ≠ path) }

/-! ### `internal/git/repo_context.go` (translated from source) -/

/-- Translated from `DetectRepoContext` in `internal/git/repo_context.go`.
Bare is the first listing record's flag (false for an empty listing).  When
bare, toplevel resolution succeeding means the process is in a linked
worktree; its failure is the expected bare-root signature and is swallowed.
When not bare, toplevel resolution must succeed, and a symlink-resolved
mismatch with the first record's path means a linked worktree. -/
def DetectRepoContext (env : GitEnv) : Except GitError RepoContext :=
  match ListWorktrees env with
  | .error e => .error e
  | .ok worktrees =>
    let bare := match worktrees with
      | [] => false
      | w0 :: _ => w0.Bare
    if bare then
      match env.showToplevel with
      | .ok _ => .ok { Bare := true, Worktree := true }
      | .error _ => .ok { Bare := true, Worktree := false }
    else
      match env.showToplevel with
      | .error e => .error e
      | .ok toplevel =>
        match worktrees with
        | [] => .ok { Bare := false, Worktree := false }
        | w0 :: _ =>
          .ok { Bare := false
                Worktree := resolvePath env w0.Path != resolvePath env toplevel }

/-! ### `internal/git/config.go` (translated from source) -/

/-- Translated from `GitConfig` in `internal/git/config.go`: all stored
values of a key in scope order; a missing key yields the empty list with a
nil error. -/
def GitConfig (env : GitEnv) (key : String) : List String :=
  env.configAll key

/-- Translated from `RepoRoot` in `internal/git/config.go`:
`git rev-parse --show-toplevel`, trimmed. -/
def RepoRoot (env : GitEnv) : Except GitError String :=
  env.showToplevel

/-- Translated from `MainRepoRoot` in `internal/git/config.go`: the parent
directory of the common git directory; a relative common dir (e.g. `.git`)
is first resolved against the current toplevel. -/
def MainRepoRoot (env : GitEnv) : Except GitError String :=
  match env.gitCommonDir with
  | .error e => .error e
  | .ok gitCommonDir =>
    if isAbs gitCommonDir then .ok (dirPath gitCommonDir)
    else
      match RepoRoot env with
      | .error e => .error e
      | .ok repoRoot => .ok (dirPath (joinPath repoRoot gitCommonDir))

/-- Translated from `RepoName` in `internal/git/config.go`: the base name
of the main repository root. -/
def RepoName (env : GitEnv) : Except GitError String :=
  match MainRepoRoot env with
  | .error e => .error e
  | .ok root => .ok (basename root)

/-- Translated from `LoadConfig` in `internal/git/config.go`: each scalar
key takes the last stored value (`val[len(val)-1]`), with defaults
`../\x7bgitroot\x7d-wt` and false when a key has no stored value; booleans
are true exactly when the last stored value is the string `true`; `NoCopy`
keeps the stored list as is. -/
def LoadConfig (env : GitEnv) : Config :=
  let baseDir := GitConfig env "wt.basedir"
  let ignored := GitConfig env "wt.copyignored"
  let untracked := GitConfig env "wt.copyuntracked"
  let modified := GitConfig env "wt.copymodified"
  let noCopy := GitConfig env "wt.nocopy"
  { BaseDir := match baseDir.getLast? with
      | none => "../{gitroot}-wt"
      | some v => v
    CopyIgnored := ignored.getLast? == some "true"
    CopyUntracked := untracked.getLast? == some "true"
    CopyModified := modified.getLast? == some "true"
    NoCopy := noCopy }

/-- Translated from `expandTemplate` in `internal/git/config.go`: when the
string contains the token, every occurrence is replaced by the repository
name; otherwise the string is returned unchanged without consulting the
repository. -/
def expandTemplate (env : GitEnv) (s : String) : Except GitError String :=
  if containsSub s "{gitroot}" then
    match RepoName env with
    | .error e => .error e
    | .ok repoName => .ok (s.replace "{gitroot}" repoName)
  else .ok s

/-- The tail of `ExpandPath` after tilde handling (the Go code falls
through to this code with the possibly rewritten path): absolute paths are
cleaned as is; relative paths are resolved from the main repository root,
not the current worktree. -/
def expandPathRest (env : GitEnv) (path : String) : Except GitError String :=
  if isAbs path then .ok (clean path)
  else
    match MainRepoRoot env with
    | .error e => .error e
    | .ok repoRoot => .ok (clean (joinPath repoRoot path))

/-- Translated from `ExpandPath` in `internal/git/config.go`: `~` and
`~/...` expand to the user's home directory, then absolute paths are kept
and relative paths are resolved from the main repository root. -/
def ExpandPath (env : GitEnv) (path : String) : Except GitError String :=
  if startsWithS path "~/" then
    match env.home with
    | .error e => .error e
    | .ok home => expandPathRest env (joinPath home (dropS path 2))
  else if path = "~" then env.home
  else expandPathRest env path

/-- Translated from `ExpandBaseDir` in `internal/git/config.go`: template
expansion followed by path expansion. -/
def ExpandBaseDir (env : GitEnv) (baseDir : String) : Except GitError String :=
  match expandTemplate env baseDir with
  | .error e => .error e
  | .ok expanded => ExpandPath env expanded

/-- Translated from `WorktreePathFor` in `internal/git/config.go`: the
expanded base directory joined with the branch name. -/
def WorktreePathFor (env : GitEnv) (baseDir branch : String) :
    Except GitError String :=
  match ExpandBaseDir env baseDir with
  | .error e => .error e
  | .ok expandedBaseDir => .ok (joinPath expandedBaseDir branch)

/-! ### Concrete environments

Small closed environments used to evaluate the definitions on concrete
inputs.  Each mirrors one of the repository situations exercised by the
tests: the main working tree of a normal repository, a linked worktree of
the same repository, a bare repository root, and a linked worktree created
from a bare repository. -/

/-- Invocation from the main working tree of a normal repository named
`repo`. -/
def envMain : GitEnv :=
  { porcelain := .ok ["worktree /home/u/repo", "HEAD 0123456", "branch refs/heads/main"]
    showToplevel := .ok "/home/u/repo"
    gitCommonDir := .ok ".git"
    home := .ok "/home/u"
    evalSymlinks := fun _ => none
    cwd := "/home/u/repo"
    configAll := fun _ => [] }

/-- Invocation from a linked worktree `f` of the same normal repository. -/
def envLinked : GitEnv :=
  { porcelain := .ok ["worktree /home/u/repo", "HEAD 0123456", "branch refs/heads/main",
                      "", "worktree /home/u/repo-wt/f", "HEAD 89abcde", "branch refs/heads/f"]
    showToplevel := .ok "/home/u/repo-wt/f"
    gitCommonDir := .ok "/home/u/repo/.git"
    home := .ok "/home/u"
    evalSymlinks := fun _ => none
    cwd := "/home/u/repo-wt/f"
    configAll := fun _ => [] }

/-- Invocation from the root of a bare repository: toplevel resolution
fails there. -/
def envBareRoot : GitEnv :=
  { porcelain := .ok ["worktree /home/u/repo.git", "bare"]
    showToplevel := .error "fatal: this operation must be run in a work tree"
    gitCommonDir := .ok "."
    home := .ok "/home/u"
    evalSymlinks := fun _ => none
    cwd := "/home/u/repo.git"
    configAll := fun _ => [] }

/-- Invocation from a linked worktree created from a bare repository:
toplevel resolution succeeds. -/
def envBareWt : GitEnv :=
  { porcelain := .ok ["worktree /home/u/repo.git", "bare",
                      "", "worktree /home/u/wt-main", "HEAD 0123456", "branch refs/heads/main"]
    showToplevel := .ok "/home/u/wt-main"
    gitCommonDir := .ok "/home/u/repo.git"
    home := .ok "/home/u"
    evalSymlinks := fun _ => none
    cwd := "/home/u/wt-main"
    configAll := fun _ => [] }

/-- A normal repository whose toplevel resolution fails (for instance the
git binary disappears between the two external calls). -/
def envToplevelErr : GitEnv :=
  { envMain with showToplevel := .error "exec failure" }

/-- An environment whose config store holds duplicate scalar values across
scopes. -/
def envCfg : GitEnv :=
  { envMain with
    configAll := fun k =>
      if k = "wt.basedir" then ["../global-wt", "../local-wt"]
      else if k = "wt.copyignored" then ["false", "true"]
      else if k = "wt.copymodified" then ["true", "false"]
      else [] }

/-! ### Helper lemmas -/

/-- Mapping colon-to-slash over a list without a colon is the identity. -/
theorem mapColon_eq_self (l : List Char) (h : ':' ∉ l) :
    (l.map fun c => if c = ':' then '/' else c) = l := by
  induction l with
  | nil => rfl
  | cons c t ih =>
    have hc : c ≠ ':' := fun hc => h (hc ▸ List.mem_cons_self c t)
    simp only [List.map_cons, if_neg hc]
    exact congrArg (c :: ·) (ih fun hm => h (List.mem_cons_of_mem c hm))

/-- Normalization is the identity on names without a colon. -/
theorem normalize_eq_self (s : String) (h : ':' ∉ s.data) :
    NormalizeBranchName s = s := by
  unfold NormalizeBranchName
  rw [mapColon_eq_self s.data h]

/-- A normalized name never contains a colon. -/
theorem colon_not_mem_normalize (s : String) :
    ':' ∉ (NormalizeBranchName s).data := by
  unfold NormalizeBranchName
  intro hm
  obtain ⟨c, _, hc⟩ := List.mem_map.mp hm
  by_cases h : c = ':'
  · rw [if_pos h] at hc
    exact absurd hc (by decide)
  · rw [if_neg h] at hc
    exact h hc

/-- A line other than the literal `bare` marker never sets the bare flag. -/
theorem parseLine_Bare_false (w : Worktree) (l : String)
    (hw : w.Bare = false) (hl : l ≠ "bare") : (parseLine w l).Bare = false := by
  unfold parseLine
  split_ifs <;> exact hw

/-- Folding the parser over a block without a `bare` marker keeps the bare
flag cleared. -/
theorem foldl_parseLine_Bare_false (b : List String) :
    ∀ w : Worktree, w.Bare = false → "bare" ∉ b →
      (b.foldl parseLine w).Bare = false := by
  induction b with
  | nil => intro w hw _; exact hw
  | cons l t ih =>
    intro w hw hb
    have hl : l ≠ "bare" := fun h => hb (h ▸ List.mem_cons_self l t)
    exact ih (parseLine w l) (parseLine_Bare_false w l hw hl)
      (fun h => hb (List.mem_cons_of_mem l h))

/-- A block without a `bare` marker parses to a non-bare record. -/
theorem parseBlock_Bare_false (b : List String) (hb : "bare" ∉ b) :
    (parseBlock b).Bare = false :=
  foldl_parseLine_Bare_false b _ rfl hb

/-- `RepoName` depends on the environment only through `MainRepoRoot`. -/
theorem RepoName_congr (e1 e2 : GitEnv)
    (hm : MainRepoRoot e1 = MainRepoRoot e2) : RepoName e1 = RepoName e2 := by
  unfold RepoName
  rw [hm]

/-- `expandTemplate` depends on the environment only through
`MainRepoRoot`. -/
theorem expandTemplate_congr (e1 e2 : GitEnv)
    (hm : MainRepoRoot e1 = MainRepoRoot e2) (s : String) :
    expandTemplate e1 s = expandTemplate e2 s := by
  unfold expandTemplate
  rw [RepoName_congr e1 e2 hm]

/-- The post-tilde tail of `ExpandPath` depends on the environment only
through `MainRepoRoot`. -/
theorem expandPathRest_congr (e1 e2 : GitEnv)
    (hm : MainRepoRoot e1 = MainRepoRoot e2) (p : String) :
    expandPathRest e1 p = expandPathRest e2 p := by
  unfold expandPathRest
  rw [hm]

/-- `ExpandPath` depends on the environment only through `MainRepoRoot`
and the home directory. -/
theorem ExpandPath_congr (e1 e2 : GitEnv)
    (hm : MainRepoRoot e1 = MainRepoRoot e2) (hh : e1.home = e2.home)
    (p : String) : ExpandPath e1 p = ExpandPath e2 p := by
  unfold ExpandPath
  rw [hh]
  simp only [expandPathRest_congr e1 e2 hm]

/-! ### Claim C10 -/

/-- C10.  `NormalizeBranchName s` equals `s` with every `:` replaced by `/`
and nothing else changed; a name containing no `:` is returned unchanged,
and the function is idempotent because its output never contains `:`. -/
theorem normalizeBranchName_colon_to_slash (s : String) :
    (NormalizeBranchName s).data = (s.data.map fun c => if c = ':' then '/' else c) ∧
    (':' ∉ s.data → NormalizeBranchName s = s) ∧
    ':' ∉ (NormalizeBranchName s).data ∧
    NormalizeBranchName (NormalizeBranchName s) = NormalizeBranchName s :=
  ⟨rfl, normalize_eq_self s, colon_not_mem_normalize s,
    normalize_eq_self (NormalizeBranchName s) (colon_not_mem_normalize s)⟩

/-- C10 witness at concrete inputs. -/
theorem normalizeBranchName_colon_to_slash_witness :
    NormalizeBranchName "someone:main" = "someone/main" ∧
    NormalizeBranchName "someone/main" = "someone/main" :=
  ⟨by decide, (normalizeBranchName_colon_to_slash "someone/main").2.1 (by decide)⟩

/-! ### Claim C9 -/

/-- C9.  Template expansion is idempotent: a string containing no
`\x7bgitroot\x7d` token is returned unchanged, and hence any expansion
result that carries no remaining token is a fixed point of a further
expansion, in any environment. -/
theorem expandTemplate_idempotent (env env2 : GitEnv) (s t : String) :
    (containsSub s "{gitroot}" = false → expandTemplate env s = .ok s) ∧
    (expandTemplate env s = .ok t → containsSub t "{gitroot}" = false →
      expandTemplate env2 t = .ok t) := by
  constructor
  · intro h
    unfold expandTemplate
    rw [h]
    rfl
  · intro _ h
    unfold expandTemplate
    rw [h]
    rfl

/-- C9 witness: the default pattern expanded in `envMain` contains no
remaining token and re-expansion leaves it unchanged. -/
theorem expandTemplate_idempotent_witness :
    containsSub "../repo-wt" "{gitroot}" = false ∧
    expandTemplate envMain "../repo-wt" = .ok "../repo-wt" :=
  ⟨by decide, (expandTemplate_idempotent envMain envMain "../repo-wt" "../repo-wt").1 (by decide)⟩

/-! ### Claim C7 -/

/-- C7.  `LoadConfig` takes, for each scalar key with stored values, the
last observed value (parsed as the literal `true` for the booleans), and
falls back to the defaults `../\x7bgitroot\x7d-wt` and `false` when a key
has no stored value. -/
theorem loadConfig_last_wins_and_defaults (env : GitEnv) :
    (∀ vs v, GitConfig env "wt.basedir" = vs ++ [v] →
      (LoadConfig env).BaseDir = v) ∧
    (∀ vs v, GitConfig env "wt.copyignored" = vs ++ [v] →
      (LoadConfig env).CopyIgnored = (v == "true")) ∧
    (∀ vs v, GitConfig env "wt.copyuntracked" = vs ++ [v] →
      (LoadConfig env).CopyUntracked = (v == "true")) ∧
    (∀ vs v, GitConfig env "wt.copymodified" = vs ++ [v] →
      (LoadConfig env).CopyModified = (v == "true")) ∧
    (GitConfig env "wt.basedir" = [] →
      (LoadConfig env).BaseDir = "../{gitroot}-wt") ∧
    (GitConfig env "wt.copyignored" = [] → (LoadConfig env).CopyIgnored = false) ∧
    (GitConfig env "wt.copyuntracked" = [] → (LoadConfig env).CopyUntracked = false) ∧
    (GitConfig env "wt.copymodified" = [] → (LoadConfig env).CopyModified = false) := by
  refine ⟨?_, ?_, ?_, ?_, ?_, ?_, ?_, ?_⟩ <;>
    first
    | (intro vs v h; simp [LoadConfig, h, List.getLast?_concat])
    | (intro h; simp [LoadConfig, h])

/-- C7 witness: duplicate values for `wt.basedir` and the booleans in
`envCfg`; unset keys fall back to the defaults. -/
theorem loadConfig_last_wins_and_defaults_witness :
    GitConfig envCfg "wt.basedir" = ["../global-wt"] ++ ["../local-wt"] ∧
    (LoadConfig envCfg).BaseDir = "../local-wt" ∧
    (LoadConfig envCfg).CopyIgnored = ("true" == "true") ∧
    (LoadConfig envCfg).CopyModified = ("false" == "true") ∧
    (LoadConfig envCfg).CopyUntracked = false :=
  ⟨by decide,
   (loadConfig_last_wins_and_defaults envCfg).1 ["../global-wt"] "../local-wt" (by decide),
   (loadConfig_last_wins_and_defaults envCfg).2.1 ["false"] "true" (by decide),
   (loadConfig_last_wins_and_defaults envCfg).2.2.2.1 ["true"] "false" (by decide),
   (loadConfig_last_wins_and_defaults envCfg).2.2.2.2.2.2.1 (by decide)⟩

/-! ### Claim C2 -/

/-- C2.  Branch matching never returns the bare record: any record returned
by `findByBranch` has `Bare = false`, and in a listing holding only the
bare record, querying with that record's own branch name returns no
record. -/
theorem findByBranch_never_bare :
    (∀ (wts : List Worktree) (b : String) (w : Worktree),
        findByBranch wts b = some w → w.Bare = false) ∧
    (∀ r : Worktree, r.Bare = true → findByBranch [r] r.Branch = none) := by
  constructor
  · intro wts b w h
    have hp := List.find?_some h
    have := (Bool.and_eq_true _ _).mp hp
    simpa using this.1
  · intro r hr
    simp [findByBranch, List.find?, hr]

/-- C2 witness: a bare-only listing queried with the bare record's own
branch name. -/
theorem findByBranch_never_bare_witness :
    (⟨"/home/u/repo.git", "main", "0123456", true, false, false⟩ : Worktree).Bare = true ∧
    findByBranch [⟨"/home/u/repo.git", "main", "0123456", true, false, false⟩] "main" = none :=
  ⟨rfl, findByBranch_never_bare.2
    ⟨"/home/u/repo.git", "main", "0123456", true, false, false⟩ rfl⟩

/-! ### Claim C6 -/

/-- C6.  When a query token matches no record of the listing,
`FindWorktreeByBranch` and `FindWorktreeByBranchOrDir` both return no
record together with a nil error: absence of a match is not a failure. -/
theorem find_absence_is_not_error (env : GitEnv) (wts : List Worktree)
    (tok : String)
    (hl : ListWorktrees env = .ok wts)
    (hb : ∀ w ∈ wts, (!w.Bare && w.Branch == tok) = false)
    (ht : ∀ w ∈ wts, tokenMatches env tok w = false) :
    FindWorktreeByBranch env tok = .ok none ∧
    FindWorktreeByBranchOrDir env tok = .ok none := by
  have hfb : findByBranch wts tok = none := by
    apply List.find?_eq_none.mpr
    intro w hw
    simp [hb w hw]
  constructor
  · unfold FindWorktreeByBranch
    rw [hl]
    simp [hfb]
  · unfold FindWorktreeByBranchOrDir
    rw [hl]
    unfold findByBranchOrDir
    cases hp : isPathLike tok with
    | false => simp [hfb]
    | true =>
      have hfd : findByDir env wts tok = none := by
        apply List.find?_eq_none.mpr
        intro w hw
        have := ht w hw
        rw [tokenMatches, if_pos hp] at this
        simp [this]
      simp [hfd]

/-- C6 witness: the token `no-such-branch` matches nothing in `envMain`. -/
theorem find_absence_is_not_error_witness :
    ListWorktrees envMain = .ok [⟨"/home/u/repo", "main", "0123456", false, false, false⟩] ∧
    FindWorktreeByBranch envMain "no-such-branch" = .ok none ∧
    FindWorktreeByBranchOrDir envMain "no-such-branch" = .ok none := by
  refine ⟨rfl, ?_⟩
  have h := find_absence_is_not_error envMain
    [⟨"/home/u/repo", "main", "0123456", false, false, false⟩] "no-such-branch"
    rfl (by decide) (by decide)
  exact h

/-! ### Claim C5 -/

/-- C5.  Worktree removal, safe or forced, never deletes a branch: on any
successful removal the branch set is unchanged (so every branch that
existed, including the removed worktree's checked-out branch, still
exists), while the record at the removed path is gone from the listing. -/
theorem removeWorktree_never_deletes_branch (s : RepoState) (path : String)
    (force : Bool) (s' : RepoState)
    (h : RemoveWorktree s path force = .ok s') :
    s'.branches = s.branches ∧
    (∀ w ∈ s.worktrees, w.Branch ∈ s.branches → w.Branch ∈ s'.branches) ∧
    (∀ w ∈ s.worktrees, w.Path = path → w ∉ s'.worktrees) := by
  unfold RemoveWorktree at h
  split_ifs at h
  injection h with h
  subst h
  refine ⟨rfl, fun w _ hb => hb, fun w _ hp hmem => ?_⟩
  have := (List.mem_filter.mp hmem).2
  simp [hp] at this

/-- C5 witness: removing the dirty worktree at `/home/u/repo-wt/f` by
force succeeds; the branch list is untouched and the record is gone. -/
theorem removeWorktree_never_deletes_branch_witness :
    RemoveWorktree
        ⟨[⟨"/home/u/repo-wt/f", "f", "89abcde", false, false, false⟩],
         ["main", "f"], ["/home/u/repo-wt/f"]⟩
        "/home/u/repo-wt/f" true
      = .ok ⟨[], ["main", "f"], []⟩ ∧
    (⟨[], ["main", "f"], []⟩ : RepoState).branches = ["main", "f"] ∧
    "f" ∈ (⟨[], ["main", "f"], []⟩ : RepoState).branches := by
  have h := removeWorktree_never_deletes_branch
    ⟨[⟨"/home/u/repo-wt/f", "f", "89abcde", false, false, false⟩],
     ["main", "f"], ["/home/u/repo-wt/f"]⟩
    "/home/u/repo-wt/f" true ⟨[], ["main", "f"], []⟩ rfl
  refine ⟨rfl, h.1, ?_⟩
  exact h.2.1 ⟨"/home/u/repo-wt/f", "f", "89abcde", false, false, false⟩
    (by decide) (by decide)

/-! ### Claim C4 -/

/-- C4.  `DetectRepoContext` swallows a toplevel-resolution failure exactly
when the first listing record is bare: with a bare first record the failure
yields `Worktree = false` and a nil error; with a non-bare first record the
same failure is returned as the call's error. -/
theorem detectRepoContext_swallows_toplevel_failure (env : GitEnv)
    (w0 : Worktree) (rest : List Worktree) (e : GitError)
    (hl : ListWorktrees env = .ok (w0 :: rest))
    (he : env.showToplevel = .error e) :
    (w0.Bare = true → DetectRepoContext env = .ok ⟨true, false⟩) ∧
    (w0.Bare = false → DetectRepoContext env = .error e) := by
  constructor
  · intro hb
    unfold DetectRepoContext
    rw [hl]
    simp [hb, he]
  · intro hb
    unfold DetectRepoContext
    rw [hl]
    simp [hb, he]

/-- C4 witness: the failure is swallowed at the bare root of
`envBareRoot` and fatal in the normal repository `envToplevelErr`. -/
theorem detectRepoContext_swallows_toplevel_failure_witness :
    DetectRepoContext envBareRoot = .ok ⟨true, false⟩ ∧
    DetectRepoContext envToplevelErr = .error "exec failure" :=
  ⟨(detectRepoContext_swallows_toplevel_failure envBareRoot
      ⟨"/home/u/repo.git", "", "", true, false, false⟩ []
      "fatal: this operation must be run in a work tree" rfl rfl).1 rfl,
   (detectRepoContext_swallows_toplevel_failure envToplevelErr
      ⟨"/home/u/repo", "main", "0123456", false, false, false⟩ []
      "exec failure" rfl rfl).2 rfl⟩

/-! ### Claim C3 -/

/-- C3.  `DetectRepoContext` maps each of the four invocation contexts to
exactly one pair: main working tree of a normal repository (non-bare first
record, toplevel resolves to the first record's path) gives
`(false, false)`; a linked worktree of a normal repository (toplevel
resolves elsewhere) gives `(false, true)`; a bare root (bare first record,
toplevel resolution fails) gives `(true, false)`; a linked worktree created
from a bare repository (bare first record, toplevel resolves) gives
`(true, true)`. -/
theorem detectRepoContext_four_contexts (env : GitEnv) (w0 : Worktree)
    (rest : List Worktree) (t : String) (e : GitError) :
    (ListWorktrees env = .ok (w0 :: rest) → w0.Bare = false →
      env.showToplevel = .ok t →
      resolvePath env w0.Path = resolvePath env t →
      DetectRepoContext env = .ok ⟨false, false⟩) ∧
    (ListWorktrees env = .ok (w0 :: rest) → w0.Bare = false →
      env.showToplevel = .ok t →
      resolvePath env w0.Path ≠ resolvePath env t →
      DetectRepoContext env = .ok ⟨false, true⟩) ∧
    (ListWorktrees env = .ok (w0 :: rest) → w0.Bare = true →
      env.showToplevel = .error e →
      DetectRepoContext env = .ok ⟨true, false⟩) ∧
    (ListWorktrees env = .ok (w0 :: rest) → w0.Bare = true →
      env.showToplevel = .ok t →
      DetectRepoContext env = .ok ⟨true, true⟩) := by
  refine ⟨?_, ?_, ?_, ?_⟩
  · intro hl hb ht hr
    unfold DetectRepoContext
    rw [hl]
    simp [hb, ht, hr]
  · intro hl hb ht hr
    unfold DetectRepoContext
    rw [hl]
    simp [hb, ht, bne_iff_ne, hr]
  · intro hl hb ht
    unfold DetectRepoContext
    rw [hl]
    simp [hb, ht]
  · intro hl hb ht
    unfold DetectRepoContext
    rw [hl]
    simp [hb, ht]

/-- C3 witness: the four concrete environments produce the four pairs. -/
theorem detectRepoContext_four_contexts_witness :
    DetectRepoContext envMain = .ok ⟨false, false⟩ ∧
    DetectRepoContext envLinked = .ok ⟨false, true⟩ ∧
    DetectRepoContext envBareRoot = .ok ⟨true, false⟩ ∧
    DetectRepoContext envBareWt = .ok ⟨true, true⟩ :=
  ⟨(detectRepoContext_four_contexts envMain
      ⟨"/home/u/repo", "main", "0123456", false, false, false⟩ []
      "/home/u/repo" "e").1 rfl rfl rfl rfl,
   (detectRepoContext_four_contexts envLinked
      ⟨"/home/u/repo", "main", "0123456", false, false, false⟩
      [⟨"/home/u/repo-wt/f", "f", "89abcde", false, false, false⟩]
      "/home/u/repo-wt/f" "e").2.1 rfl rfl rfl (by decide),
   (detectRepoContext_four_contexts envBareRoot
      ⟨"/home/u/repo.git", "", "", true, false, false⟩ [] "t"
      "fatal: this operation must be run in a work tree").2.2.1 rfl rfl rfl,
   (detectRepoContext_four_contexts envBareWt
      ⟨"/home/u/repo.git", "", "", true, false, false⟩
      [⟨"/home/u/wt-main", "main", "0123456", false, false, false⟩]
      "/home/u/wt-main" "e").2.2.2 rfl rfl rfl⟩

/-! ### Claim C8 -/

/-- C8.  Base-directory expansion resolves relative paths against the main
repository root, never against the invoking worktree's own toplevel: two
invocations from different worktrees of the same repository (same
`MainRepoRoot`, same home directory) expand the same configured pattern to
the identical base directory. -/
theorem expandBaseDir_worktree_independent (e1 e2 : GitEnv) (pat : String)
    (hm : MainRepoRoot e1 = MainRepoRoot e2) (hh : e1.home = e2.home) :
    ExpandBaseDir e1 pat = ExpandBaseDir e2 pat := by
  unfold ExpandBaseDir
  rw [expandTemplate_congr e1 e2 hm pat]
  cases expandTemplate e2 pat with
  | error e => rfl
  | ok expanded => exact ExpandPath_congr e1 e2 hm hh expanded

/-- C8 witness: the main working tree (`envMain`, relative common dir
`.git`) and its linked worktree (`envLinked`, absolute common dir) share
the main repository root, so the default pattern expands identically from
both. -/
theorem expandBaseDir_worktree_independent_witness :
    MainRepoRoot envMain = MainRepoRoot envLinked ∧
    ExpandBaseDir envMain "../{gitroot}-wt" = ExpandBaseDir envLinked "../{gitroot}-wt" :=
  ⟨rfl, expandBaseDir_worktree_independent envMain envLinked "../{gitroot}-wt" rfl rfl⟩

/-! ### Claim C1 -/

/-- C1.  For every listing parsed from porcelain output whose `bare` marker
appears (if at all) only in the first block — the shape git guarantees —
at most one record has `Bare = true`, and every record after the first has
`Bare = false`, so a bare record can only be the first record. -/
theorem listWorktrees_bare_only_first (lines : List String)
    (h : ∀ b ∈ (splitBlocks lines).tail, "bare" ∉ b) :
    bareCount (parseWorktrees lines) ≤ 1 ∧
    ∀ w ∈ (parseWorktrees lines).tail, w.Bare = false := by
  cases hbl : splitBlocks lines with
  | nil => simp [parseWorktrees, hbl, bareCount]
  | cons b0 bt =>
    rw [hbl] at h
    have htail : ∀ w ∈ (bt.map parseBlock), w.Bare = false := by
      intro w hw
      obtain ⟨b, hbmem, rfl⟩ := List.mem_map.mp hw
      exact parseBlock_Bare_false b (h b hbmem)
    have hnil : (bt.map parseBlock).filter (fun w => w.Bare) = [] := by
      apply List.filter_eq_nil_iff.mpr
      intro w hw
      simp [htail w hw]
    constructor
    · unfold bareCount parseWorktrees
      rw [hbl]
      rw [List.map_cons, List.filter_cons]
      cases hb : (parseBlock b0).Bare with
      | false => simp [hnil]
      | true => simp [hnil]
    · unfold parseWorktrees
      rw [hbl, List.map_cons, List.tail_cons]
      exact htail

/-- C1 witness: a two-block porcelain listing of a bare repository with
one linked worktree. -/
theorem listWorktrees_bare_only_first_witness :
    (∀ b ∈ (splitBlocks ["worktree /home/u/repo.git", "bare", "",
        "worktree /home/u/wt-main", "HEAD 0123456", "branch refs/heads/main"]).tail,
      "bare" ∉ b) ∧
    bareCount (parseWorktrees ["worktree /home/u/repo.git", "bare", "",
        "worktree /home/u/wt-main", "HEAD 0123456", "branch refs/heads/main"]) ≤ 1 ∧
    ∀ w ∈ (parseWorktrees ["worktree /home/u/repo.git", "bare", "",
        "worktree /home/u/wt-main", "HEAD 0123456", "branch refs/heads/main"]).tail,
      w.Bare = false :=
  ⟨by decide,
   listWorktrees_bare_only_first
     ["worktree /home/u/repo.git", "bare", "",
      "worktree /home/u/wt-main", "HEAD 0123456", "branch refs/heads/main"]
     (by decide)⟩
